import Mathlib

/-!
Verification of the parking allocator and metrics aggregator of the abstreet
repository, as described in its specification.

The definitions below are shallow embeddings of the Rust source:
* `src/editor/src/plugins/sim/new_des_model/mechanics/parking.rs`
  (`ParkingSimState` and friends), and
* `src/sim/src/analytics.rs` (`Analytics`).

Modelling conventions:
* `Distance` (an `f64` of meters in the `geom` crate) is modelled as `ℚ`;
  the parking claims only use ordering, subtraction and halving of distances.
* `Time` and `Duration` (an `f64` of seconds in the `geom` crate) are
  modelled as `ℕ`; `Time::START_OF_DAY` is `0`.  The analytics claims only
  use `min`, `+` and ordering on times.
* `BTreeSet<ParkingSpot>` is modelled as a duplicate-free `List ParkingSpot`
  (`insert` keeps an existing element, removal erases the element).
* `BTreeMap<CarID, ParkedCar>` is modelled as an association list that is
  only ever accessed by key.
* Out-of-bounds vector indexing panics in Rust; operations that can panic
  are modelled as `Option`-returning functions (`none` = panic), and pure
  queries that index with a key supplied by the caller are modelled with
  `l[i]?`, with the claims restricted to in-bounds inputs.
-/

namespace AbStreet

/-- A parking spot, addressed by `(lane, index)`
(`ParkingSpot` in the source; IDs are modelled as `ℕ`). -/
structure ParkingSpot where
  lane : Nat
  idx : Nat
  deriving DecidableEq, Repr

/-- A vehicle: identity plus footprint length
(the fields of `Vehicle` used by `parking.rs`). -/
structure Vehicle where
  id : Nat
  length : ℚ
  deriving DecidableEq, Repr

/-- `ParkedCar`: a vehicle together with the spot holding it. -/
structure ParkedCar where
  vehicle : Vehicle
  spot : ParkingSpot
  deriving DecidableEq, Repr

/-- `map_model::PARKING_SPOT_LENGTH`, a constant of the external `map_model`
crate (8 meters).  No claim depends on its exact value. -/
def PARKING_SPOT_LENGTH : ℚ := 8

/-- `ParkingSpotGeometry`: the front distance of a spot along its lane.
The `pos`/`angle` fields of the source are rendering-only data computed from
the external map and are not used by any claim, so they are omitted. -/
structure ParkingSpotGeometry where
  dist_along : ℚ
  deriving DecidableEq, Repr

/-- `ParkingSpotGeometry::dist_along_for_car`: the offset that centers a
particular car in the parking spot. -/
def ParkingSpotGeometry.dist_along_for_car (g : ParkingSpotGeometry)
    (vehicle : Vehicle) : ℚ :=
  g.dist_along - (PARKING_SPOT_LENGTH - vehicle.length) / 2

/-- `ParkingLane`: spot geometry and the index-aligned occupant slots. -/
structure ParkingLane where
  id : Nat
  spots : List ParkingSpotGeometry
  occupants : List (Option Nat)
  deriving DecidableEq, Repr

/-- `ParkingSimState`: parked cars by id, per-lane state, and the set of
reserved spots. -/
structure ParkingSimState where
  cars : List (Nat × ParkedCar)
  lanes : List ParkingLane
  reserved_spots : List ParkingSpot
  deriving DecidableEq, Repr

/-- Key lookup in the `cars` map. -/
def carsLookup (m : List (Nat × ParkedCar)) (k : Nat) : Option ParkedCar :=
  (m.find? (fun kv => kv.1 = k)).map (fun kv => kv.2)

/-- Key insertion in the `cars` map (`BTreeMap::insert`). -/
def carsInsert (m : List (Nat × ParkedCar)) (k : Nat) (v : ParkedCar) :
    List (Nat × ParkedCar) :=
  (k, v) :: m.filter (fun kv => kv.1 ≠ k)

/-- Key removal in the `cars` map (`BTreeMap::remove`, result ignored). -/
def carsRemove (m : List (Nat × ParkedCar)) (k : Nat) :
    List (Nat × ParkedCar) :=
  m.filter (fun kv => kv.1 ≠ k)

/-- `BTreeSet::insert`: keeps the set unchanged when the element is already
present (the source ignores the returned boolean). -/
def setInsert (l : List ParkingSpot) (s : ParkingSpot) : List ParkingSpot :=
  if s ∈ l then l else s :: l

/-- `BTreeSet::remove`, as the removal part; the source asserts on the
returned boolean, which the callers below test via membership. -/
def setRemove (l : List ParkingSpot) (s : ParkingSpot) : List ParkingSpot :=
  l.filter (fun x => x ≠ s)

namespace ParkingSimState

/-- The occupant slot of a spot: `none` when the lane or index is out of
bounds (a panic in the source), `some o` for the slot contents otherwise. -/
def getOcc (st : ParkingSimState) (s : ParkingSpot) : Option (Option Nat) :=
  (st.lanes[s.lane]?).bind (fun l => l.occupants[s.idx]?)

/-- The geometry of spot `i` of lane `lane`, when in bounds. -/
def laneSpotGeom (st : ParkingSimState) (lane i : Nat) :
    Option ParkingSpotGeometry :=
  (st.lanes[lane]?).bind (fun l => l.spots[i]?)

/-- `ParkingSimState::reserve_spot`: records a pending claim.
The source is exactly `self.reserved_spots.insert(spot);` — the boolean
returned by `BTreeSet::insert` is discarded, so the call always returns
normally. -/
def reserve_spot (st : ParkingSimState) (spot : ParkingSpot) :
    ParkingSimState :=
  { st with reserved_spots := setInsert st.reserved_spots spot }

/-- Writing an occupant slot: `self.lanes[spot.lane.0].occupants[spot.idx] = v`. -/
def setOccupant (lanes : List ParkingLane) (s : ParkingSpot) (v : Option Nat) :
    List ParkingLane :=
  match lanes[s.lane]? with
  | some l => lanes.set s.lane { l with occupants := l.occupants.set s.idx v }
  | none => lanes

/-- `ParkingSimState::add_parked_car`: consumes the reservation
(`assert!(self.reserved_spots.remove(&p.spot))`), checks the slot is empty
(`assert_eq!(... occupants[spot.idx], None)`), then writes the occupant and
inserts into `cars`.  `none` models an assertion failure (panic). -/
def add_parked_car (st : ParkingSimState) (p : ParkedCar) :
    Option ParkingSimState :=
  if p.spot ∈ st.reserved_spots then
    if st.getOcc p.spot = some none then
      some { st with
        reserved_spots := setRemove st.reserved_spots p.spot,
        lanes := setOccupant st.lanes p.spot (some p.vehicle.id),
        cars := carsInsert st.cars p.vehicle.id p }
    else none
  else none

end ParkingSimState

/-- The index of the first occupant slot holding `Some(car)`
(`self.occupants.iter().position(|x| *x == Some(car))`). -/
def findCarIdx (car : Nat) : List (Option Nat) → Option Nat
  | [] => none
  | x :: rest =>
      if x = some car then some 0 else (findCarIdx car rest).map (· + 1)

/-- `ParkingLane::remove_parked_car`: finds the car's slot (`.unwrap()`
panics, modelled by `none`, when the car is absent) and empties it. -/
def ParkingLane.removeCar (l : ParkingLane) (car : Nat) : Option ParkingLane :=
  (findCarIdx car l.occupants).map
    (fun i => { l with occupants := l.occupants.set i none })

namespace ParkingSimState

/-- `ParkingSimState::remove_parked_car`: drops the car from `cars` and
empties its slot on the lane of `p.spot`.  `none` models the panics of the
source (out-of-bounds lane, or car not parked on that lane). -/
def remove_parked_car (st : ParkingSimState) (p : ParkedCar) :
    Option ParkingSimState :=
  match st.lanes[p.spot.lane]? with
  | none => none
  | some l =>
    match l.removeCar p.vehicle.id with
    | none => none
    | some l' =>
      some { st with
        cars := carsRemove st.cars p.vehicle.id,
        lanes := st.lanes.set p.spot.lane l' }

end ParkingSimState

/-- The loop body of `get_free_spots`: spots for the unoccupied slots, in
index order, starting at index `k`. -/
def freeSpotsAux (laneId : Nat) : Nat → List (Option Nat) → List ParkingSpot
  | _, [] => []
  | k, none :: rest => ⟨laneId, k⟩ :: freeSpotsAux laneId (k + 1) rest
  | k, some _ :: rest => freeSpotsAux laneId (k + 1) rest

namespace ParkingSimState

/-- `ParkingSimState::get_free_spots`: all unoccupied slots of a lane, in
index order.  Reservations are not consulted. -/
def get_free_spots (st : ParkingSimState) (lane : Nat) : List ParkingSpot :=
  match st.lanes[lane]? with
  | some l => freeSpotsAux l.id 0 l.occupants
  | none => []

/-- `ParkingSimState::is_free`: unoccupied and unreserved. -/
def is_free (st : ParkingSimState) (s : ParkingSpot) : Bool :=
  decide (st.getOcc s = some none) && !(decide (s ∈ st.reserved_spots))

end ParkingSimState

/-- `map_model::Position`: a lane plus a distance along it. -/
structure Position where
  lane : Nat
  dist_along : ℚ
  deriving DecidableEq, Repr

/-- The closure tested by `get_first_free_spot` for slot `i` holding `x`:
unoccupied, unreserved, and the vehicle-specific front distance at or beyond
the query distance.  An out-of-bounds `spots[idx]` (a panic in the source,
possible only when the two index-aligned lists drift apart) is modelled
as `false`. -/
def spotCond (st : ParkingSimState) (laneId : Nat)
    (spots : List ParkingSpotGeometry) (v : Vehicle) (d : ℚ)
    (i : Nat) (x : Option Nat) : Bool :=
  x.isNone && !(decide (ParkingSpot.mk laneId i ∈ st.reserved_spots)) &&
    (match spots[i]? with
     | some g => decide (d ≤ g.dist_along_for_car v)
     | none => false)

/-- `Iterator::position` over the occupant slots, carrying the running
index `k`. -/
def firstFreeAux (cond : Nat → Option Nat → Bool) :
    Nat → List (Option Nat) → Option Nat
  | _, [] => none
  | k, x :: rest => if cond k x then some k else firstFreeAux cond (k + 1) rest

namespace ParkingSimState

/-- `ParkingSimState::get_first_free_spot`: the first spot of the position's
lane that is unoccupied, unreserved and far enough along for the vehicle. -/
def get_first_free_spot (st : ParkingSimState) (pos : Position) (v : Vehicle) :
    Option ParkingSpot :=
  match st.lanes[pos.lane]? with
  | none => none
  | some l =>
    (firstFreeAux (spotCond st pos.lane l.spots v pos.dist_along)
        0 l.occupants).map (fun i => ⟨pos.lane, i⟩)

end ParkingSimState

/-- The property of spot `i` of the queried lane that `get_first_free_spot`
scans for: unoccupied, unreserved, and vehicle-specific front distance at or
beyond the query position's distance along the lane. -/
def spotOpen (st : ParkingSimState) (pos : Position) (v : Vehicle) (i : Nat) :
    Prop :=
  st.getOcc ⟨pos.lane, i⟩ = some none ∧
  ParkingSpot.mk pos.lane i ∉ st.reserved_spots ∧
  ∃ g, st.laneSpotGeom pos.lane i = some g ∧
    pos.dist_along ≤ g.dist_along_for_car v

/-- Modelled from the spec: "`reserve(spot)`: records a pending claim.
Precondition: the spot carries no existing reservation.  A violation is a
fatal invariant break … and must not be silently tolerated."  The fatal
outcome is `none`.  This is the reservation operation the specification
describes, for comparison with the source's `reserve_spot`. -/
def reserveSpotSpec (st : ParkingSimState) (spot : ParkingSpot) :
    Option ParkingSimState :=
  if spot ∈ st.reserved_spots then none
  else some { st with reserved_spots := setInsert st.reserved_spots spot }

/-! ## The metrics aggregator (`src/sim/src/analytics.rs`) -/

/-- `Time::START_OF_DAY` of the external `geom` crate: the zero of simulated
time. -/
def START_OF_DAY : Nat := 0

/-- `TripMode` of the `sim` crate (defined outside the excerpted sources);
its four variants appear in `Analytics::event`'s agent-to-mode match. -/
inductive TripMode where
  | Walk
  | Bike
  | Transit
  | Drive
  deriving DecidableEq, Repr

/-- `TripMode::all()`: every mode, once.  The order only determines
`BTreeMap` iteration order, which no claim depends on. -/
def TripMode.all : List TripMode :=
  [TripMode.Walk, TripMode.Bike, TripMode.Transit, TripMode.Drive]

/-- One element of `ThruputStats::raw_per_road`: `(Time, TripMode, RoadID)`.
`Analytics::event` appends one such record per `AgentEntersTraversable`
event on a lane, so this list is the raw per-road record stream. -/
structure RawRecord where
  time : Nat
  mode : TripMode
  road : Nat
  deriving DecidableEq, Repr

/-- `vec.last_mut().unwrap().1 += 1`: increment the count of the last entry
of a per-mode series (no-op only on the empty list, which the source never
produces). -/
def incLast : List (Nat × Nat) → List (Nat × Nat)
  | [] => []
  | [e] => [(e.1, e.2 + 1)]
  | e :: f :: rest => e :: incLast (f :: rest)

/-- `per_mode.get_mut(m).unwrap()` followed by the increment: bump the last
entry of mode `m`'s series. -/
def bumpMode (pm : TripMode → List (Nat × Nat)) (m : TripMode) :
    TripMode → List (Nat × Nat) :=
  fun m' => if m' = m then incLast (pm m') else pm m'

/-- `for vec in per_mode.values_mut() { vec.push(e) }`. -/
def pushEntry (pm : TripMode → List (Nat × Nat)) (e : Nat × Nat) :
    TripMode → List (Nat × Nat) :=
  fun m' => pm m' ++ [e]

/-- The record loop of `Analytics::throughput_road`: skip records of other
roads, break at the first matching record after `now`, advance the bucket
boundary by (at most) one bucket width when a record passes it, and count
the record in the last entry of its mode's series. -/
def thruputLoop (now road bucket : Nat) :
    List RawRecord → Nat → (TripMode → List (Nat × Nat)) →
      TripMode → List (Nat × Nat)
  | [], _, pm => pm
  | r :: rest, maxB, pm =>
    if r.road ≠ road then thruputLoop now road bucket rest maxB pm
    else if now < r.time then pm
    else if maxB < r.time then
      thruputLoop now road bucket rest (min now (maxB + bucket))
        (bumpMode (pushEntry pm (min now (maxB + bucket), 0)) r.mode)
    else thruputLoop now road bucket rest maxB (bumpMode pm r.mode)

/-- `Analytics::throughput_road`: the bucketed per-mode throughput series of
one road, built from the raw per-road record stream. -/
def Analytics.throughput_road (raw : List RawRecord) (now road bucket : Nat) :
    TripMode → List (Nat × Nat) :=
  thruputLoop now road bucket raw (min now (START_OF_DAY + bucket))
    (fun _ => [(START_OF_DAY, 0), (min now (START_OF_DAY + bucket), 0)])

/-- `Analytics::throughput_intersection`: the loop body is the same as
`throughput_road`'s (so it shares `thruputLoop`; the `road` field of
`RawRecord` holds the `IntersectionID` of a `raw_per_intersection` entry
here), but the initialization differs from `throughput_road`: every mode's
series starts with the single entry `(Time::START_OF_DAY, 0)`, and the
initial boundary `Time::START_OF_DAY + bucket` is not clamped to `now`. -/
def Analytics.throughput_intersection (raw : List RawRecord)
    (now intersection bucket : Nat) : TripMode → List (Nat × Nat) :=
  thruputLoop now intersection bucket raw (START_OF_DAY + bucket)
    (fun _ => [(START_OF_DAY, 0)])

/-- `results.last_mut().unwrap().1.add(*dt)`: add one delay sample to the
last bucket's distribution (a `DurationHistogram` is modelled as the list of
its samples). -/
def addLastSample : List (Nat × List Nat) → Nat → List (Nat × List Nat)
  | [], _ => []
  | [e], dt => [(e.1, e.2 ++ [dt])]
  | e :: f :: rest, dt => e :: addLastSample (f :: rest) dt

/-- The record loop of `Analytics::intersection_delays_bucketized`: break at
the first record after `now`, advance the boundary by (at most) one bucket
width when a record passes it, and add the delay sample to the last
bucket — the same walk as `throughput_road`'s, on a single stream. -/
def delaysLoop (now bucket : Nat) :
    List (Nat × Nat) → Nat → List (Nat × List Nat) → List (Nat × List Nat)
  | [], _, res => res
  | d :: rest, maxB, res =>
    if now < d.1 then res
    else if maxB < d.1 then
      delaysLoop now bucket rest (min now (maxB + bucket))
        (addLastSample (res ++ [(min now (maxB + bucket), [])]) d.2)
    else delaysLoop now bucket rest maxB (addLastSample res d.2)

/-- `Analytics::intersection_delays_bucketized`: the bucketed delay
distributions of one intersection.  `delays` is that intersection's
`(time, delay)` list from the `intersection_delays` map, `none` when the map
has no entry for it (`if let Some(list) = ...`). -/
def Analytics.intersection_delays_bucketized
    (delays : Option (List (Nat × Nat))) (now bucket : Nat) :
    List (Nat × List Nat) :=
  match delays with
  | some list =>
    delaysLoop now bucket list (min now (START_OF_DAY + bucket))
      [(START_OF_DAY, []), (min now (START_OF_DAY + bucket), [])]
  | none =>
    [(START_OF_DAY, []), (min now (START_OF_DAY + bucket), [])]

/-- The bucket labels of a series (its first components). -/
def labels {α : Type} (l : List (Nat × α)) : List Nat :=
  l.map (fun e => e.1)

/-- The invariant of a bucketed series during the walk of `throughput_road`
and `intersection_delays_bucketized`: its last bucket label is the current
boundary `maxB`, consecutive labels step by `min now (· + bucket)`, and —
for a positive width and a query time after start-of-day — labels strictly
increase. -/
def labelsOK {α : Type} (now bucket maxB : Nat) (l : List (Nat × α)) : Prop :=
  (labels l).getLast? = some maxB ∧
  List.Chain' (fun a b => b = min now (a + bucket)) (labels l) ∧
  (0 < bucket → 0 < now → List.Chain' (fun a b => a < b) (labels l))

/-- Total of the counts of a series. -/
def modeTotal (l : List (Nat × Nat)) : Nat :=
  (l.map (fun e => e.2)).sum

/-- Total of the counts over every mode's series. -/
def seriesTotal (pm : TripMode → List (Nat × Nat)) : Nat :=
  (TripMode.all.map (fun m => modeTotal (pm m))).sum

/-- The raw per-road records of road `road` with time at most `now`. -/
def matchingCount (raw : List RawRecord) (now road : Nat) : Nat :=
  (raw.filter (fun r => r.road = road && r.time ≤ now)).length

/-- Modelled from the spec: "Bucket completeness: the number of buckets
returned equals the number of bucket widths needed to cover
[start-of-day, min(now, last event time)] with no gaps" — the number of
width-`w` buckets needed to cover `[0, endT]`, i.e. `⌈endT / w⌉`. -/
def bucketsNeeded (endT w : Nat) : Nat :=
  (endT + w - 1) / w

/-- One element of `Analytics::trip_log`:
`(Time, TripID, Option<PathRequest>, String)`.  The path request is opaque
here (resolving it calls the external router). -/
structure TripLogEntry where
  time : Nat
  trip : Nat
  path_req : Option Nat
  md : String
  deriving DecidableEq, Repr

/-- `TripPhase`, with the lazily-resolved path replaced by the request it
would be resolved from (resolution calls the external `map.pathfind`). -/
structure TripPhase where
  start_time : Nat
  end_time : Option Nat
  path_req : Option Nat
  description : String
  deriving DecidableEq, Repr

/-- The two terminal markers `Analytics::event` writes into the trip log for
`TripFinished` and `TripAborted`. -/
def isTerminalMd (md : String) : Bool :=
  md == "trip finished" || md == "trip aborted for some reason"

/-- `if let Some(ref mut last) = phases.last_mut() { last.end_time = Some(t) }`. -/
def setLastEnd : List TripPhase → Nat → List TripPhase
  | [], _ => []
  | [p], t => [{ p with end_time := some t }]
  | p :: q :: rest, t => p :: setLastEnd (q :: rest) t

/-- The loop of `Analytics::get_trip_phases`: skip other trips, close the
previous phase at each entry of this trip, stop at a terminal marker, and
otherwise open a new phase. -/
def gtpLoop (trip : Nat) : List TripLogEntry → List TripPhase → List TripPhase
  | [], acc => acc
  | e :: rest, acc =>
    if e.trip ≠ trip then gtpLoop trip rest acc
    else
      if isTerminalMd e.md then setLastEnd acc e.time
      else gtpLoop trip rest (setLastEnd acc e.time ++
        [⟨e.time, none, e.path_req, e.md⟩])

/-- `Analytics::get_trip_phases`. -/
def Analytics.get_trip_phases (log : List TripLogEntry) (trip : Nat) :
    List TripPhase :=
  gtpLoop trip log []

/-- Modelled from the spec: "pairing consecutive entries into phases whose
start time is the entry's time and whose end time is the next entry's time
(or absent, if the trip has not progressed further); pairing stops at the
first terminal marker (finished/aborted)" — over the log already filtered to
one trip. -/
def tripPhasesSpec : List TripLogEntry → List TripPhase
  | [] => []
  | e :: rest =>
    if isTerminalMd e.md then []
    else ⟨e.time, (rest.head?).map (fun f => f.time), e.path_req, e.md⟩ ::
      tripPhasesSpec rest

/-- One element of `Analytics::bus_arrivals`:
`(Time, CarID, BusRouteID, BusStopID)`. -/
structure BusArrival where
  time : Nat
  car : Nat
  route : Nat
  stop : Nat
  deriving DecidableEq, Repr

/-- The arrivals the `bus_arrivals` query keeps: the stream up to the first
record after `now` (the loop breaks there), restricted to route `r`. -/
def relevantArrivals (arr : List BusArrival) (now r : Nat) : List BusArrival :=
  (arr.takeWhile (fun a => a.time ≤ now)).filter (fun a => a.route = r)

/-- `per_bus[c]`: the `(time, stop)` pairs of one bus, in stream order. -/
def perBusArrivals (l : List BusArrival) (c : Nat) : List (Nat × Nat) :=
  (l.filter (fun a => a.car = c)).map (fun a => (a.time, a.stop))

/-- The keys of the `per_bus` map. -/
def busList (l : List BusArrival) : List Nat :=
  (l.map (fun a => a.car)).dedup

/-- `for pair in events.windows(2)`: each consecutive pair of one bus's
arrivals yields the sample `(stop of the second, time delta)`. -/
def headwaySamples : List (Nat × Nat) → List (Nat × Nat)
  | [] => []
  | [_] => []
  | a :: b :: rest => (b.2, b.1 - a.1) :: headwaySamples (b :: rest)

/-- `Analytics::bus_arrivals` (the query): all `(stop, headway)` samples.
The source accumulates these into a `BTreeMap<BusStopID, DurationHistogram>`
whose entries are created only when a sample is added, so the map is empty
exactly when this sample list is empty. -/
def Analytics.bus_arrivals_query (arr : List BusArrival) (now r : Nat) :
    List (Nat × Nat) :=
  ((busList (relevantArrivals arr now r)).map
    (fun c => headwaySamples (perBusArrivals (relevantArrivals arr now r) c))).flatten

/-! ## The parking allocator: reservation protocol (claims C1, C2, C9) -/

theorem setRemove_not_mem (l : List ParkingSpot) (s : ParkingSpot) :
    s ∉ setRemove l s := by
  intro h
  simp [setRemove, List.mem_filter] at h

theorem setRemove_mem_of_ne (l : List ParkingSpot) (s s' : ParkingSpot)
    (h : s' ≠ s) : s' ∈ setRemove l s ↔ s' ∈ l := by
  simp [setRemove, List.mem_filter, h]

theorem carsLookup_carsInsert (m : List (Nat × ParkedCar)) (k : Nat)
    (v : ParkedCar) : carsLookup (carsInsert m k v) k = some v := by
  simp [carsLookup, carsInsert, List.find?]

theorem carsLookup_carsRemove (m : List (Nat × ParkedCar)) (k : Nat) :
    carsLookup (carsRemove m k) k = none := by
  have : List.find? (fun kv => kv.1 = k) (carsRemove m k) = none := by
    rw [List.find?_eq_none]
    intro x hx
    simp only [carsRemove, List.mem_filter] at hx
    simpa using hx.2
  simp [carsLookup, this]

theorem getOcc_elim (st : ParkingSimState) (s : ParkingSpot) (o : Option Nat)
    (h : st.getOcc s = some o) :
    ∃ l, st.lanes[s.lane]? = some l ∧ l.occupants[s.idx]? = some o := by
  simpa [ParkingSimState.getOcc, Option.bind_eq_some] using h

theorem getOcc_set_lane (st : ParkingSimState) (s : ParkingSpot)
    (l' : ParkingLane) (hlt : s.lane < st.lanes.length) :
    ParkingSimState.getOcc { st with lanes := st.lanes.set s.lane l' } s
      = l'.occupants[s.idx]? := by
  simp [ParkingSimState.getOcc, List.getElem?_set_eq_of_lt _ hlt]

/-- Claim C1, as stated, fails on the code: `reserve_spot` is a bare
`BTreeSet::insert` whose boolean result is discarded, so a second `reserve`
on a spot that already carries a live reservation returns normally with the
state unchanged, while the specification's reservation operation
(`reserveSpotSpec`) fails there.  No hard failure occurs. -/
theorem reserve_spot_double_cex :
    ParkingSimState.reserve_spot
        (ParkingSimState.reserve_spot ⟨[], [], []⟩ ⟨0, 0⟩) ⟨0, 0⟩
      = ParkingSimState.reserve_spot ⟨[], [], []⟩ ⟨0, 0⟩ ∧
    reserveSpotSpec (ParkingSimState.reserve_spot ⟨[], [], []⟩ ⟨0, 0⟩) ⟨0, 0⟩
      = none := by
  constructor <;> rfl

/-- Claim C1 amended: calling `reserve` on a spot that already carries a
live reservation returns normally and leaves the whole state unchanged —
the first reservation is not overwritten, but the violation is silently
tolerated rather than a hard failure. -/
theorem reserve_spot_already_reserved (st : ParkingSimState) (s : ParkingSpot)
    (h : s ∈ st.reserved_spots) : ParkingSimState.reserve_spot st s = st := by
  simp [ParkingSimState.reserve_spot, setInsert, h]

/-- Witness for `reserve_spot_already_reserved` at a concrete state. -/
theorem reserve_spot_already_reserved_witness :
    ParkingSimState.reserve_spot ⟨[], [], [⟨0, 0⟩]⟩ ⟨0, 0⟩
      = (⟨[], [], [⟨0, 0⟩]⟩ : ParkingSimState) :=
  reserve_spot_already_reserved ⟨[], [], [⟨0, 0⟩]⟩ ⟨0, 0⟩ (by decide)

/-- Claim C2: `add_parked_car p` succeeds exactly when `p.spot` was reserved
and its slot empty, in which case it consumes the matching reservation
(leaving every other reservation alone), marks the slot occupied by `p`'s
vehicle and records `p` in the parked-car map; otherwise (no reservation,
occupied slot, or out-of-bounds spot) the call fails fatally (`none`, an
assertion failure aborting the step). -/
theorem add_parked_car_spec (st : ParkingSimState) (p : ParkedCar) :
    (∀ st', ParkingSimState.add_parked_car st p = some st' →
      (p.spot ∈ st.reserved_spots ∧ st.getOcc p.spot = some none) ∧
      p.spot ∉ st'.reserved_spots ∧
      (∀ s, s ≠ p.spot → (s ∈ st'.reserved_spots ↔ s ∈ st.reserved_spots)) ∧
      st'.getOcc p.spot = some (some p.vehicle.id) ∧
      carsLookup st'.cars p.vehicle.id = some p) ∧
    ((p.spot ∉ st.reserved_spots ∨ st.getOcc p.spot ≠ some none) →
      ParkingSimState.add_parked_car st p = none) := by
  constructor
  · intro st' hst'
    unfold ParkingSimState.add_parked_car at hst'
    by_cases hr : p.spot ∈ st.reserved_spots
    · by_cases ho : st.getOcc p.spot = some none
      · simp only [hr, if_true, ho, if_true, Option.some_inj] at hst'
        subst hst'
        obtain ⟨l, hl, hidx⟩ := getOcc_elim st p.spot none ho
        have hlt : p.spot.lane < st.lanes.length := by
          rcases List.getElem?_eq_some.mp hl with ⟨h1, _⟩
          exact h1
        have hilt : p.spot.idx < l.occupants.length := by
          rcases List.getElem?_eq_some.mp hidx with ⟨h1, _⟩
          exact h1
        refine ⟨⟨hr, ho⟩, setRemove_not_mem _ _,
          fun s hs => setRemove_mem_of_ne _ _ _ hs, ?_, ?_⟩
        · have hso : ParkingSimState.setOccupant st.lanes p.spot
              (some p.vehicle.id)
              = st.lanes.set p.spot.lane
                  { l with occupants :=
                      l.occupants.set p.spot.idx (some p.vehicle.id) } := by
            simp [ParkingSimState.setOccupant, hl]
          simp only [ParkingSimState.getOcc, hso]
          rw [List.getElem?_set_eq_of_lt _ hlt]
          simpa using List.getElem?_set_eq_of_lt (some p.vehicle.id) hilt
        · exact carsLookup_carsInsert _ _ _
      · simp [hr, ho] at hst'
    · simp [hr] at hst'
  · intro h
    unfold ParkingSimState.add_parked_car
    rcases h with h | h
    · simp [h]
    · by_cases hr : p.spot ∈ st.reserved_spots <;> simp [hr, h]

theorem findCarIdx_eq_some (car : Nat) :
    ∀ (l : List (Option Nat)) (i : Nat), l[i]? = some (some car) →
      (∀ j, j < i → l[j]? ≠ some (some car)) → findCarIdx car l = some i := by
  intro l
  induction l with
  | nil => intro i h _; simp at h
  | cons x rest ih =>
    intro i h hmin
    cases i with
    | zero =>
      simp only [List.getElem?_cons_zero, Option.some_inj] at h
      simp [findCarIdx, h]
    | succ j =>
      have hx : ¬ (x = some car) := by
        have h0 := hmin 0 (Nat.succ_pos j)
        simpa using h0
      have hrest : rest[j]? = some (some car) := by simpa using h
      have hmin' : ∀ m, m < j → rest[m]? ≠ some (some car) := by
        intro m hm
        have := hmin (m + 1) (Nat.succ_lt_succ hm)
        simpa using this
      simp [findCarIdx, hx, ih j hrest hmin']

/-- Claim C9: for a parked car `p` occupying the slot of its spot (and no
earlier slot of the lane holding the same vehicle id), `remove_parked_car p`
empties that slot, removes `p` from the parked-car map, and leaves the
reservation set untouched. -/
theorem remove_parked_car_spec (st : ParkingSimState) (p : ParkedCar)
    (hocc : st.getOcc p.spot = some (some p.vehicle.id))
    (hfirst : ∀ j, j < p.spot.idx →
      st.getOcc ⟨p.spot.lane, j⟩ ≠ some (some p.vehicle.id)) :
    ∃ st', ParkingSimState.remove_parked_car st p = some st' ∧
      st'.getOcc p.spot = some none ∧
      carsLookup st'.cars p.vehicle.id = none ∧
      st'.reserved_spots = st.reserved_spots := by
  obtain ⟨l, hl, hidx⟩ := getOcc_elim st p.spot (some p.vehicle.id) hocc
  have hlt : p.spot.lane < st.lanes.length := by
    rcases List.getElem?_eq_some.mp hl with ⟨h1, _⟩
    exact h1
  have hilt : p.spot.idx < l.occupants.length := by
    rcases List.getElem?_eq_some.mp hidx with ⟨h1, _⟩
    exact h1
  have hfirst' : ∀ j, j < p.spot.idx → l.occupants[j]? ≠ some (some p.vehicle.id) := by
    intro j hj hcontra
    exact hfirst j hj (by simp [ParkingSimState.getOcc, hl, hcontra])
  have hfind : findCarIdx p.vehicle.id l.occupants = some p.spot.idx :=
    findCarIdx_eq_some _ _ _ hidx hfirst'
  refine ⟨{ st with
      cars := carsRemove st.cars p.vehicle.id,
      lanes := st.lanes.set p.spot.lane
        { l with occupants := l.occupants.set p.spot.idx none } }, ?_, ?_, ?_, rfl⟩
  · simp [ParkingSimState.remove_parked_car, hl, ParkingLane.removeCar, hfind]
  · simp only [ParkingSimState.getOcc]
    rw [List.getElem?_set_eq_of_lt _ hlt]
    simpa using List.getElem?_set_eq_of_lt (none : Option Nat) hilt
  · exact carsLookup_carsRemove _ _

/-- Witness for `remove_parked_car_spec` at a concrete single-car state. -/
theorem remove_parked_car_spec_witness :
    ∃ st', ParkingSimState.remove_parked_car
        ⟨[(7, ⟨⟨7, 0⟩, ⟨0, 0⟩⟩)], [⟨0, [], [some 7]⟩], [⟨0, 0⟩]⟩
        ⟨⟨7, 0⟩, ⟨0, 0⟩⟩ = some st' ∧
      st'.getOcc ⟨0, 0⟩ = some none ∧
      carsLookup st'.cars 7 = none ∧
      st'.reserved_spots =
        (⟨[(7, ⟨⟨7, 0⟩, ⟨0, 0⟩⟩)], [⟨0, [], [some 7]⟩], [⟨0, 0⟩]⟩ :
          ParkingSimState).reserved_spots :=
  remove_parked_car_spec
    ⟨[(7, ⟨⟨7, 0⟩, ⟨0, 0⟩⟩)], [⟨0, [], [some 7]⟩], [⟨0, 0⟩]⟩
    ⟨⟨7, 0⟩, ⟨0, 0⟩⟩ (by decide) (by decide)

/-! ## The parking allocator: free-spot queries (claims C3, C10) -/

theorem freeSpotsAux_mem_of (laneId : Nat) :
    ∀ (l : List (Option Nat)) (k j : Nat), l[j]? = some none →
      (⟨laneId, k + j⟩ : ParkingSpot) ∈ freeSpotsAux laneId k l := by
  intro l
  induction l with
  | nil => intro k j h; simp at h
  | cons x rest ih =>
    intro k j h
    cases j with
    | zero =>
      simp only [List.getElem?_cons_zero, Option.some_inj] at h
      subst h
      simp [freeSpotsAux]
    | succ j' =>
      have hrest : rest[j']? = some none := by simpa using h
      have hmem := ih (k + 1) j' hrest
      rw [show k + (j' + 1) = (k + 1) + j' from by omega]
      cases x with
      | none => exact List.mem_cons_of_mem _ hmem
      | some c => exact hmem

/-- Claim C10: `get_free_spots` filters only by occupancy while `is_free`
also consults reservations, so an unoccupied spot carrying a live
reservation is listed by `get_free_spots` although `is_free` is false on
it — the two queries disagree on reserved-but-uncommitted spots. -/
theorem get_free_spots_ignores_reservations (st : ParkingSimState)
    (s : ParkingSpot) (l : ParkingLane)
    (hl : st.lanes[s.lane]? = some l) (hid : l.id = s.lane)
    (hocc : st.getOcc s = some none) (hres : s ∈ st.reserved_spots) :
    s ∈ st.get_free_spots s.lane ∧ st.is_free s = false := by
  constructor
  · have hx : l.occupants[s.idx]? = some none := by
      have := hocc
      simp only [ParkingSimState.getOcc, hl, Option.some_bind] at this
      exact this
    have hmem := freeSpotsAux_mem_of l.id l.occupants 0 s.idx hx
    simp only [ParkingSimState.get_free_spots, hl]
    have : (⟨l.id, 0 + s.idx⟩ : ParkingSpot) = s := by
      cases s
      simp_all
    rwa [this] at hmem
  · simp [ParkingSimState.is_free, hres]

/-- Witness for `get_free_spots_ignores_reservations` on a one-spot lane
whose single spot is reserved but unoccupied. -/
theorem get_free_spots_ignores_reservations_witness :
    (⟨0, 0⟩ : ParkingSpot) ∈
      ParkingSimState.get_free_spots ⟨[], [⟨0, [], [none]⟩], [⟨0, 0⟩]⟩ 0 ∧
    ParkingSimState.is_free ⟨[], [⟨0, [], [none]⟩], [⟨0, 0⟩]⟩ ⟨0, 0⟩ = false :=
  get_free_spots_ignores_reservations ⟨[], [⟨0, [], [none]⟩], [⟨0, 0⟩]⟩
    ⟨0, 0⟩ ⟨0, [], [none]⟩ (by decide) (by decide) (by decide) (by decide)

theorem firstFreeAux_eq_some (cond : Nat → Option Nat → Bool) :
    ∀ (l : List (Option Nat)) (k i : Nat), firstFreeAux cond k l = some i →
      ∃ j, i = k + j ∧ (∃ x, l[j]? = some x ∧ cond (k + j) x = true) ∧
        ∀ m, m < j → ∃ x, l[m]? = some x ∧ cond (k + m) x = false := by
  intro l
  induction l with
  | nil => intro k i h; simp [firstFreeAux] at h
  | cons x rest ih =>
    intro k i h
    cases hc : cond k x with
    | true =>
      refine ⟨0, ?_, ⟨x, by simp, by simpa using hc⟩, by omega⟩
      simp [firstFreeAux, hc] at h
      omega
    | false =>
      simp only [firstFreeAux, hc, Bool.false_eq_true, if_false] at h
      obtain ⟨j, hij, ⟨y, hy, hcy⟩, hmin⟩ := ih (k + 1) i h
      refine ⟨j + 1, by omega, ⟨y, by simpa using hy, ?_⟩, ?_⟩
      · rw [show k + (j + 1) = (k + 1) + j from by omega]
        exact hcy
      · intro m hm
        cases m with
        | zero =>
          exact ⟨x, by simp, by simpa using hc⟩
        | succ m' =>
          obtain ⟨z, hz, hcz⟩ := hmin m' (by omega)
          refine ⟨z, by simpa using hz, ?_⟩
          rw [show k + (m' + 1) = (k + 1) + m' from by omega]
          exact hcz

theorem firstFreeAux_eq_none (cond : Nat → Option Nat → Bool) :
    ∀ (l : List (Option Nat)) (k : Nat),
      firstFreeAux cond k l = none ↔
        ∀ j x, l[j]? = some x → cond (k + j) x = false := by
  intro l
  induction l with
  | nil => intro k; simp [firstFreeAux]
  | cons x rest ih =>
    intro k
    cases hc : cond k x with
    | true =>
      simp only [firstFreeAux, hc, if_true]
      constructor
      · intro h; exact absurd h (by simp)
      · intro h
        have := h 0 x (by simp)
        rw [Nat.add_zero] at this
        rw [hc] at this
        exact absurd this (by simp)
    | false =>
      simp only [firstFreeAux, hc, Bool.false_eq_true, if_false]
      rw [ih (k + 1)]
      constructor
      · intro h j y hy
        cases j with
        | zero =>
          simp only [List.getElem?_cons_zero, Option.some_inj] at hy
          subst hy
          rw [Nat.add_zero]
          exact hc
        | succ j' =>
          rw [show k + (j' + 1) = (k + 1) + j' from by omega]
          exact h j' y (by simpa using hy)
      · intro h j y hy
        rw [show (k + 1) + j = k + (j + 1) from by omega]
        exact h (j + 1) y (by simpa using hy)

theorem spotCond_iff_spotOpen (st : ParkingSimState) (pos : Position)
    (v : Vehicle) (l : ParkingLane) (hl : st.lanes[pos.lane]? = some l)
    (i : Nat) (x : Option Nat) (hx : l.occupants[i]? = some x) :
    spotCond st pos.lane l.spots v pos.dist_along i x = true ↔
      spotOpen st pos v i := by
  cases hg : l.spots[i]? with
  | none =>
    simp [spotCond, spotOpen, ParkingSimState.getOcc,
      ParkingSimState.laneSpotGeom, hl, hx, hg]
  | some g =>
    simp [spotCond, spotOpen, ParkingSimState.getOcc,
      ParkingSimState.laneSpotGeom, hl, hx, hg,
      Option.isNone_iff_eq_none, and_assoc]

theorem spotOpen_occ (st : ParkingSimState) (pos : Position) (v : Vehicle)
    (l : ParkingLane) (hl : st.lanes[pos.lane]? = some l) (i : Nat)
    (ho : spotOpen st pos v i) : l.occupants[i]? = some none := by
  have h1 := ho.1
  simp only [ParkingSimState.getOcc, hl, Option.some_bind] at h1
  exact h1

/-- Claim C3: `get_first_free_spot` returns the lowest-indexed spot of the
query position's lane that is unoccupied, unreserved and whose
vehicle-specific front distance is at or beyond the position's distance
along the lane (`spotOpen`); it returns `none` exactly when no such spot
exists.  In particular a returned spot always has front distance at least
the query distance. -/
theorem get_first_free_spot_spec (st : ParkingSimState) (pos : Position)
    (v : Vehicle) :
    (∀ s, st.get_first_free_spot pos v = some s →
      s.lane = pos.lane ∧ spotOpen st pos v s.idx ∧
        ∀ j, j < s.idx → ¬ spotOpen st pos v j) ∧
    (st.get_first_free_spot pos v = none ↔ ∀ i, ¬ spotOpen st pos v i) := by
  cases hl : st.lanes[pos.lane]? with
  | none =>
    have hno : ∀ i, ¬ spotOpen st pos v i := by
      intro i hi
      have h1 := hi.1
      simp [ParkingSimState.getOcc, hl] at h1
    constructor
    · intro s hs
      simp [ParkingSimState.get_first_free_spot, hl] at hs
    · simp [ParkingSimState.get_first_free_spot, hl, hno]
  | some l =>
    have hsome : ∀ s, st.get_first_free_spot pos v = some s →
        s.lane = pos.lane ∧ spotOpen st pos v s.idx ∧
          ∀ j, j < s.idx → ¬ spotOpen st pos v j := by
      intro s hs
      simp only [ParkingSimState.get_first_free_spot, hl,
        Option.map_eq_some'] at hs
      obtain ⟨i, hi, rfl⟩ := hs
      obtain ⟨j, hij, ⟨x, hx, hcond⟩, hmin⟩ :=
        firstFreeAux_eq_some _ l.occupants 0 i hi
      rw [Nat.zero_add] at hij
      subst hij
      rw [Nat.zero_add] at hcond
      refine ⟨rfl, (spotCond_iff_spotOpen st pos v l hl i x hx).mp hcond, ?_⟩
      intro m hm hopen
      obtain ⟨x', hx', hcond'⟩ := hmin m hm
      rw [Nat.zero_add] at hcond'
      have := (spotCond_iff_spotOpen st pos v l hl m x' hx').mpr hopen
      rw [this] at hcond'
      exact absurd hcond' (by simp)
    refine ⟨hsome, ?_, ?_⟩
    · intro hnone i hopen
      have haux : firstFreeAux (spotCond st pos.lane l.spots v pos.dist_along)
          0 l.occupants = none := by
        simp only [ParkingSimState.get_first_free_spot, hl,
          Option.map_eq_none'] at hnone
        exact hnone
      have hx := spotOpen_occ st pos v l hl i hopen
      have hcf := (firstFreeAux_eq_none _ l.occupants 0).mp haux i none hx
      rw [Nat.zero_add] at hcf
      have hct := (spotCond_iff_spotOpen st pos v l hl i none hx).mpr hopen
      rw [hct] at hcf
      exact absurd hcf (by simp)
    · intro hno
      cases hres : st.get_first_free_spot pos v with
      | none => rfl
      | some s =>
        exact absurd (hsome s hres).2.1 (hno s.idx)

/-! ## The metrics aggregator: trip phases and bus headways (claims C7, C8) -/

theorem setLastEnd_concat (front : List TripPhase) (t0 : Nat) (pr : Option Nat)
    (d : String) (t : Nat) :
    setLastEnd (front ++ [⟨t0, none, pr, d⟩]) t = front ++ [⟨t0, some t, pr, d⟩] := by
  induction front with
  | nil => rfl
  | cons f fr ih =>
    cases fr with
    | nil => rfl
    | cons g gr =>
      simp only [List.cons_append, List.append_eq, setLastEnd] at ih ⊢
      rw [ih]

theorem gtpLoop_concat (trip : Nat) :
    ∀ (log : List TripLogEntry) (front : List TripPhase) (t0 : Nat)
      (pr : Option Nat) (d : String),
      gtpLoop trip log (front ++ [⟨t0, none, pr, d⟩]) =
        front ++ ⟨t0, ((log.filter (fun e => e.trip = trip)).head?).map
            (fun f => f.time), pr, d⟩ ::
          tripPhasesSpec (log.filter (fun e => e.trip = trip)) := by
  intro log
  induction log with
  | nil => intro front t0 pr d; rfl
  | cons e rest ih =>
    intro front t0 pr d
    simp only [gtpLoop]
    by_cases htrip : e.trip = trip
    · rw [if_neg (not_not_intro htrip)]
      by_cases hterm : isTerminalMd e.md = true
      · rw [if_pos hterm, setLastEnd_concat]
        simp [tripPhasesSpec, List.filter_cons, htrip, hterm]
      · rw [if_neg hterm, setLastEnd_concat,
          ih (front ++ [TripPhase.mk t0 (some e.time) pr d])
            e.time e.path_req e.md]
        simp [tripPhasesSpec, List.filter_cons, htrip, hterm]
    · rw [if_pos htrip, ih front t0 pr d]
      simp [List.filter_cons, htrip]

theorem gtpLoop_eq_spec (log : List TripLogEntry) (trip : Nat) :
    gtpLoop trip log [] = tripPhasesSpec (log.filter (fun e => e.trip = trip)) := by
  induction log with
  | nil => rfl
  | cons e rest ih =>
    simp only [gtpLoop]
    by_cases htrip : e.trip = trip
    · rw [if_neg (not_not_intro htrip)]
      by_cases hterm : isTerminalMd e.md = true
      · rw [if_pos hterm]
        simp [setLastEnd, tripPhasesSpec, List.filter_cons, htrip, hterm]
      · rw [if_neg hterm,
          show setLastEnd [] e.time ++ [(⟨e.time, none, e.path_req, e.md⟩ :
            TripPhase)] = [] ++ [(⟨e.time, none, e.path_req, e.md⟩ :
            TripPhase)] from rfl,
          gtpLoop_concat trip rest [] e.time e.path_req e.md]
        simp [tripPhasesSpec, List.filter_cons, htrip, hterm]
    · rw [if_pos htrip, ih]
      simp [List.filter_cons, htrip]

/-- Claim C7: `get_trip_phases` replays the log filtered to one trip and
pairs consecutive entries into phases — each phase starts at its entry's
time and ends at the time of the trip's next entry (absent when the trip has
not progressed further), and pairing stops at the first terminal marker,
which produces no phase of its own (`tripPhasesSpec`, the specification's
pairing, stated over the filtered log). -/
theorem get_trip_phases_pairs (log : List TripLogEntry) (trip : Nat) :
    Analytics.get_trip_phases log trip =
      tripPhasesSpec (log.filter (fun e => e.trip = trip)) :=
  gtpLoop_eq_spec log trip

/-- Claim C8 amended: queries on absent data return empty results, not
errors — `get_trip_phases` of a trip with no log entries is the empty phase
list and `bus_arrivals` of a route with no arrivals up to `now` is the
empty per-stop map — and a bus with at most one recorded arrival on the
route contributes no headway sample.  (The original per-stop reading is
false: a bus with two or more arrivals contributes one sample per
consecutive pair even when it never arrives twice at any one stop — the
pairing ignores stops; see the counterexample.) -/
theorem absent_data_empty_results (log : List TripLogEntry) (trip : Nat)
    (arr : List BusArrival) (now r : Nat) :
    (log.filter (fun e => e.trip = trip) = [] →
      Analytics.get_trip_phases log trip = []) ∧
    (relevantArrivals arr now r = [] →
      Analytics.bus_arrivals_query arr now r = []) ∧
    (∀ c, (perBusArrivals (relevantArrivals arr now r) c).length ≤ 1 →
      headwaySamples (perBusArrivals (relevantArrivals arr now r) c) = []) := by
  refine ⟨?_, ?_, ?_⟩
  · intro h
    rw [Analytics.get_trip_phases, gtpLoop_eq_spec, h]
    rfl
  · intro h
    simp [Analytics.bus_arrivals_query, h, busList]
  · intro c h
    rcases hp : perBusArrivals (relevantArrivals arr now r) c with _ | ⟨a, _ | ⟨b, t⟩⟩
    · rfl
    · rfl
    · rw [hp] at h
      simp at h

/-- Claim C8's last part, as stated, fails on the code: bus 1 arrives once
at stop 10 (time 0) and once at stop 20 (time 7) — never a second time at
any stop — yet it contributes the headway sample `(20, 7)`, because
`events.windows(2)` pairs a bus's consecutive arrivals regardless of stop,
keying the sample to the stop of the later arrival with the delta of the two
arrival times.  The per-stop map is therefore not empty. -/
theorem bus_cross_stop_sample_cex :
    Analytics.bus_arrivals_query [⟨0, 1, 5, 10⟩, ⟨7, 1, 5, 20⟩] 100 5
      = [(20, 7)] ∧
    Analytics.bus_arrivals_query [⟨0, 1, 5, 10⟩, ⟨7, 1, 5, 20⟩] 100 5 ≠ [] := by
  refine ⟨by decide, by decide⟩

/-! ## The metrics aggregator: bucketed throughput (claims C4, C5, C6) -/

theorem modeTotal_append_zero (l : List (Nat × Nat)) (t : Nat) :
    modeTotal (l ++ [(t, 0)]) = modeTotal l := by
  simp [modeTotal]

theorem modeTotal_incLast :
    ∀ (l : List (Nat × Nat)), l ≠ [] → modeTotal (incLast l) = modeTotal l + 1 := by
  intro l
  induction l with
  | nil => intro h; exact absurd rfl h
  | cons e rest ih =>
    intro _
    cases rest with
    | nil => simp [incLast, modeTotal]
    | cons f t =>
      rw [show incLast (e :: f :: t) = e :: incLast (f :: t) from rfl]
      simp only [modeTotal, List.map_cons, List.sum_cons]
      have h2 := ih (by simp)
      simp only [modeTotal, List.map_cons, List.sum_cons] at h2
      omega

theorem incLast_ne_nil (l : List (Nat × Nat)) (h : l ≠ []) : incLast l ≠ [] := by
  cases l with
  | nil => exact absurd rfl h
  | cons e t => cases t <;> simp [incLast]

theorem seriesTotal_pushEntry (pm : TripMode → List (Nat × Nat)) (t : Nat) :
    seriesTotal (pushEntry pm (t, 0)) = seriesTotal pm := by
  simp [seriesTotal, TripMode.all, pushEntry, modeTotal_append_zero]

theorem seriesTotal_bumpMode (pm : TripMode → List (Nat × Nat)) (m : TripMode)
    (h : pm m ≠ []) : seriesTotal (bumpMode pm m) = seriesTotal pm + 1 := by
  have hm := modeTotal_incLast (pm m) h
  cases m <;> simp [seriesTotal, TripMode.all, bumpMode, hm] <;> omega

theorem matchingCount_cons_skip (r : RawRecord) (rest : List RawRecord)
    (now road : Nat) (h : ¬ r.road = road) :
    matchingCount (r :: rest) now road = matchingCount rest now road := by
  simp [matchingCount, List.filter_cons, h]

theorem matchingCount_cons_late (r : RawRecord) (rest : List RawRecord)
    (now road : Nat) (h : now < r.time) :
    matchingCount (r :: rest) now road = matchingCount rest now road := by
  simp [matchingCount, List.filter_cons, Nat.not_le.mpr h]

theorem matchingCount_cons_hit (r : RawRecord) (rest : List RawRecord)
    (now road : Nat) (h1 : r.road = road) (h2 : r.time ≤ now) :
    matchingCount (r :: rest) now road = matchingCount rest now road + 1 := by
  simp [matchingCount, List.filter_cons, h1, h2, Nat.add_comm]

theorem matchingCount_all_late (rest : List RawRecord) (now road : Nat)
    (h : ∀ a ∈ rest, now < a.time) : matchingCount rest now road = 0 := by
  rw [matchingCount, List.length_eq_zero, List.filter_eq_nil_iff]
  intro a ha
  have := h a ha
  simp [Nat.not_le.mpr this]

theorem thruputLoop_total (now road bucket : Nat) :
    ∀ (rest : List RawRecord) (maxB : Nat) (pm : TripMode → List (Nat × Nat)),
      List.Pairwise (fun a b => a.time ≤ b.time) rest →
      (∀ m, pm m ≠ []) →
      seriesTotal (thruputLoop now road bucket rest maxB pm) =
        seriesTotal pm + matchingCount rest now road := by
  intro rest
  induction rest with
  | nil =>
    intro maxB pm _ _
    simp [thruputLoop, matchingCount]
  | cons r rest ih =>
    intro maxB pm hsort hne
    rw [List.pairwise_cons] at hsort
    obtain ⟨hhead, htail⟩ := hsort
    simp only [thruputLoop]
    by_cases hroad : r.road = road
    · rw [if_neg (not_not_intro hroad)]
      by_cases htime : now < r.time
      · rw [if_pos htime]
        have hzero : matchingCount (r :: rest) now road = 0 := by
          apply matchingCount_all_late
          intro a ha
          rcases List.mem_cons.mp ha with rfl | ha'
          · exact htime
          · exact lt_of_lt_of_le htime (hhead a ha')
        omega
      · rw [if_neg htime]
        by_cases hbuck : maxB < r.time
        · rw [if_pos hbuck]
          rw [ih _ _ htail
            (fun m => by
              unfold bumpMode
              split
              · exact incLast_ne_nil _ (by simp [pushEntry])
              · simp [pushEntry])]
          rw [seriesTotal_bumpMode _ _ (by simp [pushEntry]),
            seriesTotal_pushEntry,
            matchingCount_cons_hit r rest now road hroad (Nat.not_lt.mp htime)]
          omega
        · rw [if_neg hbuck]
          rw [ih _ _ htail
            (fun m => by
              unfold bumpMode
              split
              · exact incLast_ne_nil _ (hne _)
              · exact hne _)]
          rw [seriesTotal_bumpMode _ _ (hne _),
            matchingCount_cons_hit r rest now road hroad (Nat.not_lt.mp htime)]
          omega
    · rw [if_pos hroad]
      rw [ih _ _ htail hne, matchingCount_cons_skip r rest now road hroad]

/-- Claim C5: over a time-ordered raw stream, summing the per-bucket counts
of `throughput_road` over all returned buckets and all travel modes equals
the number of raw per-road records of that road with time at most `now` —
each matching record lands in exactly one bucket of one mode, and records
after `now` are excluded. -/
theorem throughput_road_round_trip (raw : List RawRecord)
    (now road bucket : Nat)
    (hsort : List.Pairwise (fun a b => a.time ≤ b.time) raw) :
    seriesTotal (Analytics.throughput_road raw now road bucket) =
      matchingCount raw now road := by
  unfold Analytics.throughput_road
  rw [thruputLoop_total now road bucket raw _ _ hsort (fun m => by simp)]
  simp [seriesTotal, TripMode.all, modeTotal]

/-- Witness for `throughput_road_round_trip` on a concrete sorted stream:
of the five records, four are on the queried road and at or before `now`. -/
theorem throughput_road_round_trip_witness :
    seriesTotal (Analytics.throughput_road
        [⟨0, TripMode.Drive, 0⟩, ⟨50, TripMode.Walk, 0⟩, ⟨60, TripMode.Drive, 1⟩,
          ⟨700, TripMode.Bike, 0⟩, ⟨1300, TripMode.Drive, 0⟩]
        800 0 600) =
      matchingCount
        [⟨0, TripMode.Drive, 0⟩, ⟨50, TripMode.Walk, 0⟩, ⟨60, TripMode.Drive, 1⟩,
          ⟨700, TripMode.Bike, 0⟩, ⟨1300, TripMode.Drive, 0⟩]
        800 0 :=
  throughput_road_round_trip
    [⟨0, TripMode.Drive, 0⟩, ⟨50, TripMode.Walk, 0⟩, ⟨60, TripMode.Drive, 1⟩,
      ⟨700, TripMode.Bike, 0⟩, ⟨1300, TripMode.Drive, 0⟩]
    800 0 600 (by decide)

/-! ## Bucket labels: gaps and counterexamples (claims C4, C6) -/

theorem labels_incLast : ∀ (l : List (Nat × Nat)), labels (incLast l) = labels l := by
  intro l
  induction l with
  | nil => rfl
  | cons e t ih =>
    cases t with
    | nil => rfl
    | cons f t' =>
      rw [show incLast (e :: f :: t') = e :: incLast (f :: t') from rfl]
      simp only [labels, List.map_cons] at ih ⊢
      rw [ih]

theorem labelsOK_congr {α : Type} (now bucket maxB : Nat)
    (l l' : List (Nat × α)) (h : labels l' = labels l)
    (hOK : labelsOK now bucket maxB l) : labelsOK now bucket maxB l' := by
  rw [labelsOK, h]
  exact hOK

theorem labelsOK_push {α : Type} (now bucket maxB : Nat) (v : α)
    (l : List (Nat × α)) (h : labelsOK now bucket maxB l)
    (hlt_now : maxB < now) :
    labelsOK now bucket (min now (maxB + bucket))
      (l ++ [(min now (maxB + bucket), v)]) := by
  obtain ⟨hlast, hchain, hmono⟩ := h
  refine ⟨?_, ?_, ?_⟩
  · rw [labels, List.map_append]
    exact List.getLast?_concat _
  · rw [labels, List.map_append]
    refine List.chain'_append.mpr ⟨hchain, List.chain'_singleton _, ?_⟩
    intro x hx y hy
    simp only [List.map_cons, List.map_nil, List.head?_cons, Option.mem_def,
      Option.some_inj] at hy
    rw [labels] at hlast
    rw [hlast] at hx
    simp only [Option.mem_def, Option.some_inj] at hx
    subst hx
    subst hy
    rfl
  · intro hb hn
    rw [labels, List.map_append]
    refine List.chain'_append.mpr ⟨hmono hb hn, List.chain'_singleton _, ?_⟩
    intro x hx y hy
    simp only [List.map_cons, List.map_nil, List.head?_cons, Option.mem_def,
      Option.some_inj] at hy
    rw [labels] at hlast
    rw [hlast] at hx
    simp only [Option.mem_def, Option.some_inj] at hx
    subst hx
    subst hy
    exact lt_min hlt_now (by omega)

theorem thruputLoop_labels (now road bucket : Nat) :
    ∀ (rest : List RawRecord) (maxB : Nat) (pm : TripMode → List (Nat × Nat)),
      maxB ≤ now → (∀ m, labelsOK now bucket maxB (pm m)) →
      ∃ maxB', ∀ m, labelsOK now bucket maxB'
        (thruputLoop now road bucket rest maxB pm m) := by
  intro rest
  induction rest with
  | nil =>
    intro maxB pm _ h
    exact ⟨maxB, fun m => by simpa [thruputLoop] using h m⟩
  | cons r rest ih =>
    intro maxB pm hle h
    simp only [thruputLoop]
    by_cases hroad : r.road = road
    · rw [if_neg (not_not_intro hroad)]
      by_cases htime : now < r.time
      · rw [if_pos htime]
        exact ⟨maxB, h⟩
      · rw [if_neg htime]
        by_cases hbuck : maxB < r.time
        · rw [if_pos hbuck]
          have hlt_now : maxB < now := lt_of_lt_of_le hbuck (Nat.not_lt.mp htime)
          apply ih (min now (maxB + bucket)) _ (min_le_left _ _)
          intro m
          unfold bumpMode
          split
          · exact labelsOK_congr _ _ _ _ _ (labels_incLast _)
              (labelsOK_push _ _ _ _ _ (h _) hlt_now)
          · exact labelsOK_push _ _ _ _ _ (h _) hlt_now
        · rw [if_neg hbuck]
          apply ih maxB _ hle
          intro m
          unfold bumpMode
          split
          · exact labelsOK_congr _ _ _ _ _ (labels_incLast _) (h _)
          · exact h _
    · rw [if_pos hroad]
      exact ih maxB pm hle h

theorem labels_bumpMode (pm : TripMode → List (Nat × Nat)) (m m' : TripMode) :
    labels (bumpMode pm m m') = labels (pm m') := by
  unfold bumpMode
  split
  · exact labels_incLast _
  · rfl

theorem thruputLoop_labels_zero (road bucket : Nat) :
    ∀ (rest : List RawRecord) (pm : TripMode → List (Nat × Nat)) (m : TripMode),
      labels (thruputLoop 0 road bucket rest 0 pm m) = labels (pm m) := by
  intro rest
  induction rest with
  | nil => intro pm m; rfl
  | cons r rest ih =>
    intro pm m
    simp only [thruputLoop]
    by_cases hroad : r.road = road
    · rw [if_neg (not_not_intro hroad)]
      by_cases htime : 0 < r.time
      · rw [if_pos htime]
      · rw [if_neg htime, if_neg htime, ih (bumpMode pm r.mode) m,
          labels_bumpMode]
    · rw [if_pos hroad]
      exact ih pm m

theorem labels_addLastSample :
    ∀ (l : List (Nat × List Nat)) (dt : Nat),
      labels (addLastSample l dt) = labels l := by
  intro l
  induction l with
  | nil => intro dt; rfl
  | cons e t ih =>
    intro dt
    cases t with
    | nil => rfl
    | cons f t' =>
      rw [show addLastSample (e :: f :: t') dt
          = e :: addLastSample (f :: t') dt from rfl]
      simp only [labels, List.map_cons] at ih ⊢
      rw [ih]

theorem delaysLoop_labels (now bucket : Nat) :
    ∀ (rest : List (Nat × Nat)) (maxB : Nat) (res : List (Nat × List Nat)),
      maxB ≤ now → labelsOK now bucket maxB res →
      ∃ maxB', labelsOK now bucket maxB'
        (delaysLoop now bucket rest maxB res) := by
  intro rest
  induction rest with
  | nil =>
    intro maxB res _ h
    exact ⟨maxB, by simpa [delaysLoop] using h⟩
  | cons d rest ih =>
    intro maxB res hle h
    simp only [delaysLoop]
    by_cases htime : now < d.1
    · rw [if_pos htime]
      exact ⟨maxB, h⟩
    · rw [if_neg htime]
      by_cases hbuck : maxB < d.1
      · rw [if_pos hbuck]
        have hlt_now : maxB < now := lt_of_lt_of_le hbuck (Nat.not_lt.mp htime)
        apply ih (min now (maxB + bucket)) _ (min_le_left _ _)
        exact labelsOK_congr _ _ _ _ _ (labels_addLastSample _ _)
          (labelsOK_push _ _ _ _ _ h hlt_now)
      · rw [if_neg hbuck]
        apply ih maxB _ hle
        exact labelsOK_congr _ _ _ _ _ (labels_addLastSample _ _) h

theorem delaysLoop_labels_zero (bucket : Nat) :
    ∀ (rest : List (Nat × Nat)) (res : List (Nat × List Nat)),
      labels (delaysLoop 0 bucket rest 0 res) = labels res := by
  intro rest
  induction rest with
  | nil => intro res; rfl
  | cons d rest ih =>
    intro res
    simp only [delaysLoop]
    by_cases htime : 0 < d.1
    · rw [if_pos htime]
    · rw [if_neg htime, if_neg htime, ih (addLastSample res d.2),
        labels_addLastSample]

theorem labelsOK_init {α : Type} (now bucket : Nat) (v w : α) :
    labelsOK now bucket (min now (START_OF_DAY + bucket))
      [(START_OF_DAY, v), (min now (START_OF_DAY + bucket), w)] := by
  refine ⟨by simp [labels], ?_, ?_⟩
  · simp only [labels, List.map_cons, List.map_nil]
    exact List.chain'_cons.mpr ⟨rfl, List.chain'_singleton _⟩
  · intro hb hn
    simp only [labels, List.map_cons, List.map_nil, START_OF_DAY]
    refine List.chain'_cons.mpr ⟨?_, List.chain'_singleton _⟩
    exact lt_min hn (by omega)

/-- Claim C4, as stated, fails on the code.  For `throughput_road`: with
records on the queried road at times 0 and 1805, `now = 1805` and bucket
width 600, only the labels 0, 600, 1200 are returned — the most recent
boundary at or before `now` (1800) never appears, the bucket [1200, 1800)
is missing, and the number of entries (3) differs from the number of bucket
widths needed to cover [start-of-day, min(now, last event time)]
(`bucketsNeeded`, 4); the walk advances at most one bucket per matching
record, and the record at 1805 is counted under the label 1200.
`intersection_delays_bucketized` shares that walk and fails the same way on
delays at times 0 and 1805.  `throughput_intersection` does not even share
the walk: its first boundary is unclamped and its series starts with a
single entry, so with one record at 650, `now = 700` and width 600 its
labels are 0, 700 — the boundary 600 (the most recent boundary at or before
`now`) is skipped outright. -/
theorem throughput_road_gaps_cex :
    (labels (Analytics.throughput_road
        [⟨0, TripMode.Drive, 0⟩, ⟨1805, TripMode.Drive, 0⟩]
        1805 0 600 TripMode.Drive) = [0, 600, 1200] ∧
      (1800 : Nat) ∉ labels (Analytics.throughput_road
        [⟨0, TripMode.Drive, 0⟩, ⟨1805, TripMode.Drive, 0⟩]
        1805 0 600 TripMode.Drive) ∧
      (Analytics.throughput_road
        [⟨0, TripMode.Drive, 0⟩, ⟨1805, TripMode.Drive, 0⟩]
        1805 0 600 TripMode.Drive).length
          ≠ bucketsNeeded (min 1805 1805) 600) ∧
    (labels (Analytics.intersection_delays_bucketized
        (some [(0, 5), (1805, 7)]) 1805 600) = [0, 600, 1200] ∧
      (1800 : Nat) ∉ labels (Analytics.intersection_delays_bucketized
        (some [(0, 5), (1805, 7)]) 1805 600)) ∧
    (labels (Analytics.throughput_intersection
        [⟨650, TripMode.Drive, 0⟩] 700 0 600 TripMode.Drive) = [0, 700] ∧
      (600 : Nat) ∉ labels (Analytics.throughput_intersection
        [⟨650, TripMode.Drive, 0⟩] 700 0 600 TripMode.Drive)) := by
  refine ⟨⟨by decide, by decide, by decide⟩, ⟨by decide, by decide⟩,
    by decide, by decide⟩

/-- Claim C4 amended: for `throughput_road` and
`intersection_delays_bucketized`, which share the same bucket walk, every
returned series' labels are consecutive boundaries — each successive label
equals `min now (previous + bucket)`, the label sequence never skips an
intermediate boundary — and for a positive bucket width and a query time
after start-of-day the labels strictly increase, so each appearing bucket
appears exactly once (zero counts included); at `now = START_OF_DAY` the
series is instead exactly the two initial entries, both labelled
`START_OF_DAY`.  The series may still stop before the most recent boundary
at or before `now`, since the boundary advances at most one bucket width per
matching record (the counterexample).  `throughput_intersection` does not
share this walk — single initial entry, first boundary not clamped to
`now` — and its first step can skip a boundary (also the counterexample). -/
theorem throughput_road_bucket_labels (raw : List RawRecord)
    (odelays : Option (List (Nat × Nat))) (now road bucket : Nat)
    (m : TripMode) :
    (List.Chain' (fun a b => b = min now (a + bucket))
        (labels (Analytics.throughput_road raw now road bucket m)) ∧
      (0 < bucket → 0 < now → List.Pairwise (fun a b => a < b)
        (labels (Analytics.throughput_road raw now road bucket m))) ∧
      (now = 0 → labels (Analytics.throughput_road raw now road bucket m)
        = [START_OF_DAY, START_OF_DAY])) ∧
    (List.Chain' (fun a b => b = min now (a + bucket))
        (labels (Analytics.intersection_delays_bucketized odelays now bucket)) ∧
      (0 < bucket → 0 < now → List.Pairwise (fun a b => a < b)
        (labels (Analytics.intersection_delays_bucketized odelays now bucket))) ∧
      (now = 0 →
        labels (Analytics.intersection_delays_bucketized odelays now bucket)
          = [START_OF_DAY, START_OF_DAY])) := by
  constructor
  · obtain ⟨maxB', hall⟩ := thruputLoop_labels now road bucket raw
      (min now (START_OF_DAY + bucket))
      (fun _ => [(START_OF_DAY, 0), (min now (START_OF_DAY + bucket), 0)])
      (min_le_left _ _) (fun _ => labelsOK_init now bucket 0 0)
    obtain ⟨_, hchain, hmono⟩ := hall m
    refine ⟨hchain,
      fun hb hn => List.chain'_iff_pairwise.mp (hmono hb hn), ?_⟩
    intro hzero
    subst hzero
    unfold Analytics.throughput_road
    rw [show min 0 (START_OF_DAY + bucket) = 0 from by simp,
      thruputLoop_labels_zero]
    rfl
  · cases odelays with
    | none =>
      obtain ⟨_, hchain, hmono⟩ :=
        labelsOK_init (α := List Nat) now bucket [] []
      refine ⟨hchain,
        fun hb hn => List.chain'_iff_pairwise.mp (hmono hb hn), ?_⟩
      intro hzero
      subst hzero
      show labels [(START_OF_DAY, ([] : List Nat)),
        (min 0 (START_OF_DAY + bucket), [])] = _
      rw [show min 0 (START_OF_DAY + bucket) = 0 from by simp]
      rfl
    | some list =>
      obtain ⟨maxB', h⟩ := delaysLoop_labels now bucket list
        (min now (START_OF_DAY + bucket))
        [(START_OF_DAY, []), (min now (START_OF_DAY + bucket), [])]
        (min_le_left _ _) (labelsOK_init now bucket [] [])
      obtain ⟨_, hchain, hmono⟩ := h
      refine ⟨hchain,
        fun hb hn => List.chain'_iff_pairwise.mp (hmono hb hn), ?_⟩
      intro hzero
      subst hzero
      show labels (delaysLoop 0 bucket list (min 0 (START_OF_DAY + bucket))
        [(START_OF_DAY, []), (min 0 (START_OF_DAY + bucket), [])]) = _
      rw [show min 0 (START_OF_DAY + bucket) = 0 from by simp,
        delaysLoop_labels_zero]
      rfl

/-- Claim C6, as stated, fails on the code: with road-entry records at 0,
50, 130, 250 and 1205 seconds (bucket width 600, queried at 1205), the four
records before 600 all land in the bucket labelled 600 — count 4, not 3 —
and no returned bucket carries count 3. -/
theorem throughput_scenario_cex :
    Analytics.throughput_road
        [⟨0, TripMode.Drive, 0⟩, ⟨50, TripMode.Drive, 0⟩, ⟨130, TripMode.Drive, 0⟩,
          ⟨250, TripMode.Drive, 0⟩, ⟨1205, TripMode.Drive, 0⟩]
        1205 0 600 TripMode.Drive = [(0, 0), (600, 4), (1200, 1)] ∧
    ∀ e ∈ Analytics.throughput_road
        [⟨0, TripMode.Drive, 0⟩, ⟨50, TripMode.Drive, 0⟩, ⟨130, TripMode.Drive, 0⟩,
          ⟨250, TripMode.Drive, 0⟩, ⟨1205, TripMode.Drive, 0⟩]
        1205 0 600 TripMode.Drive, e.2 ≠ 3 := by
  refine ⟨by decide, by decide⟩

/-- Claim C6 amended: the scenario's query returns three entries for that
mode, labelled 0, 600 and 1200, with counts 0, 4 and 1 — the records at 0,
50, 130 and 250 are all counted in the bucket labelled 600, and the record
at 1205 is counted under the label 1200. -/
theorem throughput_scenario_buckets :
    Analytics.throughput_road
        [⟨0, TripMode.Drive, 0⟩, ⟨50, TripMode.Drive, 0⟩, ⟨130, TripMode.Drive, 0⟩,
          ⟨250, TripMode.Drive, 0⟩, ⟨1205, TripMode.Drive, 0⟩]
        1205 0 600 TripMode.Drive = [(0, 0), (600, 4), (1200, 1)] := by
  decide

end AbStreet
